import Mathlib

set_option maxRecDepth 20000

/-!
Shallow embedding of the IPC-chatbot repository core logic.

The embedding covers:
* `utils/institution.py` — the institution resolver (`fetch_from_wikipedia`,
  `HARDCODED_INSTITUTION_DATA`, `get_institution_info`), with the network
  modelled as an oracle `String → FetchOutcome` mapping a request URL to the
  outcome of `requests.get`, and a fetched HTML page modelled as the parts of
  the parse tree the code inspects (`WikiPage`).
* `utils/doc_qa.py` — the loader dispatch of `setup_doc_qa` (the embedding,
  vector store and LLM objects are external capabilities).
* `utils/ipc_bot.py` and `app.py` — the module-level initialization of
  `ipc_qa` and the IPC-tab answer path of the Streamlit app.
* The text chunker, modelled from the spec (the splitting algorithm lives in
  the external langchain `CharacterTextSplitter`, outside this repository).

Python string primitives (`str.split`, `str.capitalize`, `str.lower`,
`str.upper`, `str.strip`, substring `in`, `str.startswith`, `"x".join`) are
embedded over `List Char`, using core `Char.toLower`/`Char.toUpper`, which
agree with Python on ASCII (the repository data is ASCII).
-/

/-- Decidable equality for `Except` results, used to evaluate the embedded
entry points at concrete inputs. -/
instance {e a : Type} [DecidableEq e] [DecidableEq a] : DecidableEq (Except e a) := fun
  | .error x, .error y =>
    if h : x = y then isTrue (by rw [h]) else isFalse (fun he => by cases he; exact h rfl)
  | .ok x, .ok y =>
    if h : x = y then isTrue (by rw [h]) else isFalse (fun he => by cases he; exact h rfl)
  | .error _, .ok _ => isFalse (fun he => by cases he)
  | .ok _, .error _ => isFalse (fun he => by cases he)

/-- Python substring test `pat in hay` (contiguous substring). -/
def containsSubstring (hay pat : List Char) : Bool :=
  match hay with
  | [] => pat.isEmpty
  | _ :: t => pat.isPrefixOf hay || containsSubstring t pat

/-- Helper for Python `str.split()`: accumulates the current word (reversed)
while walking the text; splits on runs of whitespace, dropping empty words. -/
def pySplitAux (cur : List Char) : List Char → List (List Char)
  | [] => if cur.isEmpty then [] else [cur.reverse]
  | c :: rest =>
    if c.isWhitespace then
      if cur.isEmpty then pySplitAux [] rest else cur.reverse :: pySplitAux [] rest
    else pySplitAux (c :: cur) rest

/-- Python `str.split()` with no argument: split on whitespace runs, no empties. -/
def pySplit (l : List Char) : List (List Char) :=
  pySplitAux [] l

/-- Python `" ".join(ws)`. -/
def joinSpace : List (List Char) → List Char
  | [] => []
  | [w] => w
  | w :: ws => w ++ ' ' :: joinSpace ws

/-- Python `"\n".join(ss)` over strings. -/
def joinNewline : List String → String
  | [] => ""
  | [s] => s
  | s :: ss => s ++ "\n" ++ joinNewline ss

/-- Python `str.capitalize()`: first character uppercased, the rest lowercased. -/
def pyCapitalize (w : List Char) : List Char :=
  match w with
  | [] => []
  | c :: r => c.toUpper :: r.map Char.toLower

/-- Python `str.strip()`: drop leading and trailing whitespace. -/
def pyStrip (l : List Char) : List Char :=
  ((l.dropWhile Char.isWhitespace).reverse.dropWhile Char.isWhitespace).reverse

/-- Helper for Python `str.split(',')` (keeps empty pieces). -/
def splitCommaAux (cur : List Char) : List Char → List (List Char)
  | [] => [cur.reverse]
  | c :: rest =>
    if c = ',' then cur.reverse :: splitCommaAux [] rest
    else splitCommaAux (c :: cur) rest

/-- Python `str.split(',')`. -/
def splitComma (l : List Char) : List (List Char) :=
  splitCommaAux [] l

/-- Python `str.lower()` on a `String` (ASCII). -/
def pyLowerS (s : String) : String :=
  ⟨s.data.map Char.toLower⟩

/-- Python `str.upper()` on a `String` (ASCII). -/
def pyUpperS (s : String) : String :=
  ⟨s.data.map Char.toUpper⟩

/-- Python `pat in hay` on `String`s. -/
def strContainsS (hay pat : String) : Bool :=
  containsSubstring hay.data pat.data

/-- Python `s.startswith(pre)`. -/
def startsWithS (s pre : String) : Bool :=
  pre.data.isPrefixOf s.data

/-- `" ".join([word.capitalize() for word in name.split()])` — the input
normalization used both by `fetch_from_wikipedia` and `get_institution_info`. -/
def pyNormalize (s : String) : String :=
  ⟨joinSpace ((pySplit s.data).map pyCapitalize)⟩

/-- `term.replace(" ", "_")` as used to build the request URL. -/
def underscoreSpaces (s : String) : String :=
  ⟨s.data.map (fun c => if c = ' ' then '_' else c)⟩

/-- `InstitutionDetails` (pydantic `BaseModel`) from `utils/institution.py`. -/
structure InstitutionDetails where
  name : String
  founder : String
  founded_year : String
  branches : List String
  employees : String
  summary : String
deriving DecidableEq, Repr

/-- The local variables `found_founder`, `found_founded_year`, `found_branches`
and `found_employees` threaded through the infobox row loop of
`fetch_from_wikipedia` (name and summary are computed outside that loop). -/
structure InfoboxFields where
  founder : String
  founded_year : String
  branches : List String
  employees : String
deriving DecidableEq, Repr

/-- Initial values of the infobox-loop locals in `fetch_from_wikipedia`. -/
def initFields : InfoboxFields :=
  { founder := "Not Available"
    founded_year := "Not Available"
    branches := []
    employees := "Not Available" }

/-- One `tr` of the infobox: the stripped text of its first `th` and first
`td`, when present. -/
structure WikiRow where
  th : Option String
  td : Option String
deriving DecidableEq, Repr

/-- The parts of the fetched HTML page that `fetch_from_wikipedia` inspects:
`soup.title` (absent title makes `soup.title.text` raise, which the broad
`except` turns into `None`), the `disambigbox` marker, the infobox rows when
a `table.infobox` exists, the stripped texts of all `p` elements in document
order, and the `h1#firstHeading` text. -/
structure WikiPage where
  title : Option String
  hasDisambigbox : Bool
  infobox : Option (List WikiRow)
  paragraphs : List String
  firstHeading : Option String
deriving DecidableEq, Repr

/-- Outcome of `requests.get(url, timeout=10)` followed by
`raise_for_status()`: a timeout, an HTTP-status error, a network error, some
other exception, or a successfully fetched page. -/
inductive FetchOutcome where
  | timeout : FetchOutcome
  | httpError (status : Nat) : FetchOutcome
  | networkError (msg : String) : FetchOutcome
  | otherException (msg : String) : FetchOutcome
  | page (p : WikiPage) : FetchOutcome
deriving DecidableEq, Repr

/-- The scrape-stage outcomes the spec calls timeout, HTTP error and network
error — the `except` branches of `fetch_from_wikipedia`. -/
def isScrapeError : FetchOutcome → Bool
  | .timeout => true
  | .httpError _ => true
  | .networkError _ => true
  | _ => false

/-- Python word characters (`\w`, ASCII): letters, digits, underscore. -/
def isWordChar (c : Char) : Bool :=
  c.isAlphanum || c = '_'

/-- Does `re.search(r'\b\d{4}\b', ·)` match at the head of the list: four
digits followed by end-of-string or a non-word character? -/
def fourDigitHere : List Char → Option (List Char)
  | c1 :: c2 :: c3 :: c4 :: rest =>
    if c1.isDigit && c2.isDigit && c3.isDigit && c4.isDigit &&
        (match rest with | [] => true | r :: _ => !isWordChar r) then
      some [c1, c2, c3, c4]
    else none
  | _ => none

/-- Leftmost match of `\b\d{4}\b`: scan positions left to right, tracking
whether the previous character is a word character (for the left boundary). -/
def findYearAux (prevIsWord : Bool) : List Char → Option (List Char)
  | [] => none
  | c :: rest =>
    match (if prevIsWord then none else fourDigitHere (c :: rest)) with
    | some y => some y
    | none => findYearAux (isWordChar c) rest

/-- `match = re.search(r'\b\d{4}\b', data_text)`; the matched year when found,
else the raw text — the `Established`/`Founded` branch of the row loop. -/
def extractFoundedYear (data_text : String) : String :=
  match findYearAux false data_text.data with
  | some y => ⟨y⟩
  | none => data_text

/-- `[b.strip() for b in data_text.split(',') if b.strip() and "Campus" not in b]`. -/
def branchParts (data_text : String) : List String :=
  ((splitComma data_text.data).filter
      (fun b => !(pyStrip b).isEmpty && !containsSubstring b "Campus".data)).map
    (fun b => (⟨pyStrip b⟩ : String))

/-- One iteration of the infobox row loop of `fetch_from_wikipedia`: the
`if`/`elif` chain keyed on substrings of the header text.  Rows missing the
`th` or the `td` are skipped; the `President`/`Director` branch is `pass`. -/
def applyRow (st : InfoboxFields) (row : WikiRow) : InfoboxFields :=
  match row.th, row.td with
  | some header_text, some data_text =>
    if strContainsS header_text "Founder" then
      { st with founder := data_text }
    else if strContainsS header_text "Established" || strContainsS header_text "Founded" then
      { st with founded_year := extractFoundedYear data_text }
    else if strContainsS header_text "Campus" || strContainsS header_text "Location" ||
        strContainsS header_text "Branches" then
      { st with branches := st.branches ++ branchParts data_text }
    else if strContainsS header_text "Employees" || strContainsS header_text "Staff" then
      { st with employees := data_text }
    else st
  | _, _ => st

/-- Filter of the summary loop: keep non-empty paragraphs not starting with
`Coordinates:` and not containing the two navigation/disclaimer markers. -/
def paragraphQualifies (text : String) : Bool :=
  !text.isEmpty && !startsWithS text "Coordinates:" &&
    !strContainsS text "For other uses," &&
    !strContainsS text "From Wikipedia, the free encyclopedia"

/-- The body of `fetch_from_wikipedia` after a successful `requests.get`:
disambiguation check, infobox row loop, summary extraction (first four
qualifying paragraphs), and the `firstHeading` name override.  `none` models
the `return None` of the disambiguation branch and the broad `except` that
catches `soup.title.text` raising on a page without a `<title>`.
`list(set(found_branches))` is embedded as first-occurrence deduplication
(Python set iteration order is unspecified). -/
def parseWikiPage (institution_name : String) (pg : WikiPage) : Option InstitutionDetails :=
  if pg.hasDisambigbox then none
  else
    match pg.title with
    | none => none
    | some t =>
      if strContainsS (pyLowerS t) "disambiguation" then none
      else
        let st :=
          match pg.infobox with
          | none => initFields
          | some rows => rows.foldl applyRow initFields
        let quals := pg.paragraphs.filter paragraphQualifies
        let found_summary :=
          if quals.isEmpty then "No summary found." else joinNewline (quals.take 4)
        let found_name :=
          match pg.firstHeading with
          | some h => h
          | none => institution_name
        some
          { name := found_name
            founder := st.founder
            founded_year := st.founded_year
            branches := st.branches.eraseDups
            employees := st.employees
            summary := found_summary }

/-- The request URL built by `fetch_from_wikipedia`: capitalize-normalize the
argument, apply the three hardcoded abbreviation mappings, underscore spaces. -/
def wikiRequestUrl (institution_name : String) : String :=
  let normalized_search_term := pyNormalize institution_name
  let term :=
    if pyUpperS normalized_search_term = "JNU" then "Jawaharlal_Nehru_University"
    else if pyUpperS normalized_search_term = "IIT BOMBAY" then
      "Indian_Institute_of_Technology_Bombay"
    else if pyUpperS normalized_search_term = "AIIMS DELHI" then
      "All_India_Institute_of_Medical_Sciences,_Delhi"
    else normalized_search_term
  "https://en.wikipedia.org/wiki/" ++ underscoreSpaces term

/-- `fetch_from_wikipedia`, with the network abstracted as an oracle `web`
from request URL to `FetchOutcome`.  Every `except` branch returns `None`;
a fetched page is handed to `parseWikiPage`. -/
def fetch_from_wikipedia (web : String → FetchOutcome) (institution_name : String) :
    Option InstitutionDetails :=
  match web (wikiRequestUrl institution_name) with
  | .timeout => none
  | .httpError _ => none
  | .networkError _ => none
  | .otherException _ => none
  | .page p => parseWikiPage institution_name p

/-- Catalog entry `"Indian Institute of Technology Bombay"`. -/
def iitBombayRecord : InstitutionDetails :=
  { name := "Indian Institute of Technology Bombay"
    founder := "Dr. Bhabha"
    founded_year := "1958"
    branches := ["Mumbai"]
    employees := "5000+"
    summary := "The Indian Institute of Technology Bombay (IIT Bombay) is one of India\x27s most prestigious engineering and research institutions, established in 1958. Located in Powai, Mumbai, its sprawling campus is a hub of academic excellence and innovation. IIT Bombay is consistently ranked among the top technical universities in India and globally, attracting brilliant minds from across the country. It offers a wide array of undergraduate, postgraduate, and doctoral programs in engineering, science, humanities, and management." }

/-- Catalog entry `"Indian Institute of Science"`. -/
def iiscRecord : InstitutionDetails :=
  { name := "Indian Institute of Science"
    founder := "Jamsetji Tata"
    founded_year := "1909"
    branches := ["Bengaluru"]
    employees := "3000+"
    summary := "The Indian Institute of Science (IISc), located in Bengaluru, is India\x27s premier institution for advanced scientific and technological research and education. It was established in 1909 with the visionary support of Jamsetji Tata and the then Maharaja of Mysore, becoming a cornerstone of India\x27s scientific progress. IISc is internationally recognized for its rigorous academic programs, pioneering research, and significant contributions to fundamental and applied sciences. The institute offers a wide range of master\x27s and doctoral programs in various disciplines." }

/-- Catalog entry `"All India Institute of Medical Sciences, Delhi"`. -/
def aiimsRecord : InstitutionDetails :=
  { name := "All India Institute of Medical Sciences, Delhi"
    founder := "Government of India"
    founded_year := "1956"
    branches := ["New Delhi"]
    employees := "10000+"
    summary := "The All India Institute of Medical Sciences, New Delhi (AIIMS Delhi) stands as India\x27s leading medical institution, established in 1956 by the Government of India. It operates as a public medical research university and hospital, setting national benchmarks for medical education, research, and patient care. AIIMS Delhi is consistently ranked as the top medical college in the country, renowned for its highly specialized clinical services and advanced research facilities. It offers comprehensive undergraduate and postgraduate medical and paramedical courses." }

/-- Catalog entry `"Jawaharlal Nehru University"`. -/
def jnuRecord : InstitutionDetails :=
  { name := "Jawaharlal Nehru University"
    founder := "Government of India"
    founded_year := "1969"
    branches := ["New Delhi"]
    employees := "1200+"
    summary := "Jawaharlal Nehru University (JNU) is a public central university located in New Delhi, India. It was established in 1969 and is known for its liberal arts and social science programs. JNU is one of the leading universities in India, recognized for its research in various fields. It attracts students and faculty from across the globe." }

/-- Catalog entry `"Stanford University"`. -/
def stanfordRecord : InstitutionDetails :=
  { name := "Stanford University"
    founder := "Leland Stanford, Jane Stanford"
    founded_year := "1885"
    branches := ["Stanford, California"]
    employees := "20000+"
    summary := "Stanford University, officially Leland Stanford Junior University, is a private research university in Stanford, California. It was founded in 1885 by Leland and Jane Stanford in memory of their son, Leland Stanford Jr. The university is known for its academic excellence, research, and proximity to Silicon Valley, fostering innovation and entrepreneurship. It offers programs in a wide range of disciplines." }

/-- Catalog entry `"Massachusetts Institute of Technology"`. -/
def mitRecord : InstitutionDetails :=
  { name := "Massachusetts Institute of Technology"
    founder := "William Barton Rogers"
    founded_year := "1861"
    branches := ["Cambridge, Massachusetts"]
    employees := "12000+"
    summary := "The Massachusetts Institute of Technology (MIT) is a private land-grant research university in Cambridge, Massachusetts. Established in 1861, MIT is known for its cutting-edge research and education in science, engineering, and technology. It has played a key role in the development of modern technology and scientific advancements. MIT consistently ranks among the world\x27s top universities." }

/-- `HARDCODED_INSTITUTION_DATA`: a Python dict, embedded as an association
list in the dict insertion order (Python dicts iterate in insertion order). -/
def HARDCODED_INSTITUTION_DATA : List (String × InstitutionDetails) :=
  [("Indian Institute of Technology Bombay", iitBombayRecord),
   ("Indian Institute of Science", iiscRecord),
   ("All India Institute of Medical Sciences, Delhi", aiimsRecord),
   ("Jawaharlal Nehru University", jnuRecord),
   ("Stanford University", stanfordRecord),
   ("Massachusetts Institute of Technology", mitRecord)]

/-- Step 2 of `get_institution_info`: the exact (case-sensitive) dict lookup
`if normalized_input_name in HARDCODED_INSTITUTION_DATA`. -/
def catalogExact (normalized : String) : Option InstitutionDetails :=
  (HARDCODED_INSTITUTION_DATA.find? (fun kv => kv.1 == normalized)).map (·.2)

/-- Step 3 of `get_institution_info`: the alias loop — first entry whose key
equals the normalized input case-insensitively or contains it (lowercased)
as a substring, in insertion order. -/
def catalogAlias (normalized : String) : Option InstitutionDetails :=
  (HARDCODED_INSTITUTION_DATA.find? (fun kv =>
      pyLowerS normalized == pyLowerS kv.1 ||
        containsSubstring (pyLowerS kv.1).data (pyLowerS normalized).data)).map (·.2)

/-- The alias loop with the case-insensitive-equality disjunct dropped: the
first catalog entry whose lowercased key contains the lowercased normalized
input as a substring.  (Pointwise equal to `catalogAlias`, since equality
implies substring.) -/
def firstCatalogSubstringMatch (normalized : String) : Option InstitutionDetails :=
  (HARDCODED_INSTITUTION_DATA.find? (fun kv =>
      containsSubstring (pyLowerS kv.1).data (pyLowerS normalized).data)).map (·.2)

/-- Steps 2–3 of `get_institution_info` plus the final `raise ValueError`:
exact catalog match, then the alias loop, then the not-found failure whose
message carries the original (un-normalized) input name. -/
def catalogResolve (normalized original : String) : Except String InstitutionDetails :=
  match catalogExact normalized with
  | some d => .ok d
  | none =>
    match catalogAlias normalized with
    | some d => .ok d
    | none =>
      .error ("No data available for \x27" ++ original ++ "\x27 from web or hardcoded sources.")

/-- Step 1 of `get_institution_info`: the Wikipedia fetch followed by the
completeness gate — the scraped record is kept only when its summary and
founded year are both informative. -/
def acceptedScrape (web : String → FetchOutcome) (normalized : String) :
    Option InstitutionDetails :=
  match fetch_from_wikipedia web normalized with
  | some d =>
    if d.summary ≠ "No summary found." ∧ d.founded_year ≠ "Not Available" then some d
    else none
  | none => none

/-- `get_institution_info`: normalize the input, try the gated Wikipedia
fetch, then fall back to the static catalog stages.  The `except ValueError`
around the fetch is dead code (`fetch_from_wikipedia` catches every
exception internally and returns `None`), so it is not modelled. -/
def get_institution_info (web : String → FetchOutcome) (institution_name : String) :
    Except String InstitutionDetails :=
  let normalized_input_name := pyNormalize institution_name
  match acceptedScrape web normalized_input_name with
  | some d => .ok d
  | none => catalogResolve normalized_input_name institution_name

/-- The two document loaders `setup_doc_qa` can construct. -/
inductive DocLoader where
  | pyPDFLoader : DocLoader
  | textLoader : DocLoader
deriving DecidableEq, Repr

/-- The loader dispatch of `setup_doc_qa` in `utils/doc_qa.py`: `PyPDFLoader`
for `file_type == "pdf"`, `TextLoader` for every other `file_type`.  The
embedding model, vector store and LLM the function goes on to build are
external capabilities and are not modelled. -/
def setup_doc_qa (file_type : String) : DocLoader :=
  if file_type == "pdf" then .pyPDFLoader else .textLoader

/-- What a question on the IPC tab of `app.py` produces, as rendered by the
blanket `except Exception` of the UI: an answer, a typed provider failure,
or an untyped Python error message. -/
inductive IpcOutcome where
  | answered (s : String) : IpcOutcome
  | generationFailure (cause : String) : IpcOutcome
  | embeddingUnavailable (cause : String) : IpcOutcome
  | untypedError (msg : String) : IpcOutcome
deriving DecidableEq, Repr

/-- The module-level `try`/`except` of `utils/ipc_bot.py`: `ipc_qa` is the
chain when `setup_ipc_qa` succeeds and `None` when it raises. -/
def ipc_qa_init {α : Type} (setup : Except String α) : Option α :=
  match setup with
  | .ok chain => some chain
  | .error _ => none

/-- The IPC-tab handler of `app.py`: `answer = ipc_qa(ipc_question)`.  When
`ipc_qa` is `None`, calling it raises `TypeError: NoneType object is not
callable`, which the surrounding `except Exception` renders as an error
string; otherwise the chain runs the question. -/
def ipc_tab_answer {α : Type} (ipc_qa : Option α) (run : α → String → IpcOutcome)
    (ipc_question : String) : IpcOutcome :=
  match ipc_qa with
  | none => .untypedError "TypeError: NoneType object is not callable"
  | some chain => run chain ipc_question

/-- Is the outcome one of the two typed provider failures named by the spec? -/
def isTypedProviderFailure : IpcOutcome → Bool
  | .generationFailure _ => true
  | .embeddingUnavailable _ => true
  | _ => false

/-- Modelled from the spec: the chunking algorithm lives in the external
langchain `CharacterTextSplitter` (`CharacterTextSplitter(chunk_size=1000,
chunk_overlap=200)` in `utils/doc_qa.py` and `utils/ipc_bot.py`), whose code
is not part of this repository.  Spec §4.1: walk the text producing chunks of
`chunk_size` characters, advancing the start position by
`chunk_size - overlap` each step; the final chunk may be shorter.  Fuel-based
recursion; `fuel = length` suffices whenever `0 < step`. -/
def splitGo (size step : Nat) : Nat → List Char → List (List Char)
  | _, [] => []
  | Nat.succ fuel, cs =>
    cs.take size :: (if cs.length ≤ size then [] else splitGo size step fuel (cs.drop step))
  | 0, _ => []

/-- Modelled from the spec: the chunker `split(text, chunk_size, overlap)`
of §4.1, producing the chunk texts in document order. -/
def splitText (size step : Nat) (cs : List Char) : List (List Char) :=
  splitGo size step cs.length cs

/-- The configured chunk size (`chunk_size=1000`). -/
def chunkSize : Nat := 1000

/-- The configured overlap (`chunk_overlap=200`). -/
def chunkOverlap : Nat := 200

/-- The stride between chunk start positions: `chunk_size - overlap`. -/
def chunkStride : Nat := chunkSize - chunkOverlap

/-! ### Character-level facts about ASCII case mapping -/

theorem char_toNat_ofNat {n : Nat} (h : n < 55296) : (Char.ofNat n).toNat = n := by
  rw [Char.ofNat, dif_pos (Or.inl (by exact_mod_cast h))]
  rfl

theorem char_eq_iff_toNat {a b : Char} : a = b ↔ a.toNat = b.toNat := by
  constructor
  · intro h; rw [h]
  · intro h
    have ha := Char.ofNat_toNat a
    have hb := Char.ofNat_toNat b
    rw [← ha, ← hb, h]

theorem toLower_toNat (c : Char) :
    c.toLower.toNat = if 65 ≤ c.toNat ∧ c.toNat ≤ 90 then c.toNat + 32 else c.toNat := by
  show (if c.toNat ≥ 65 ∧ c.toNat ≤ 90 then Char.ofNat (c.toNat + 32) else c).toNat = _
  split
  · rename_i h
    exact char_toNat_ofNat (by omega)
  · rfl

theorem toUpper_toNat (c : Char) :
    c.toUpper.toNat = if 97 ≤ c.toNat ∧ c.toNat ≤ 122 then c.toNat - 32 else c.toNat := by
  show (if c.toNat ≥ 97 ∧ c.toNat ≤ 122 then Char.ofNat (c.toNat - 32) else c).toNat = _
  split
  · rename_i h
    exact char_toNat_ofNat (by omega)
  · rfl

theorem isWhitespace_iff (c : Char) :
    c.isWhitespace = true ↔ (c.toNat = 32 ∨ c.toNat = 9 ∨ c.toNat = 13 ∨ c.toNat = 10) := by
  show (c = ' ' || c = '\t' || c = '\r' || c = '\n') = true ↔ _
  simp only [Bool.or_eq_true, decide_eq_true_eq]
  rw [@char_eq_iff_toNat c ' ', @char_eq_iff_toNat c '\t',
    @char_eq_iff_toNat c '\r', @char_eq_iff_toNat c '\n']
  rw [show (' ').toNat = 32 from rfl, show ('\t').toNat = 9 from rfl,
    show ('\r').toNat = 13 from rfl, show ('\n').toNat = 10 from rfl]
  omega

theorem isWhitespace_toLower (c : Char) : c.toLower.isWhitespace = c.isWhitespace := by
  have h1 := toLower_toNat c
  rw [Bool.eq_iff_iff, isWhitespace_iff, isWhitespace_iff]
  split at h1 <;> omega

theorem isWhitespace_toUpper (c : Char) : c.toUpper.isWhitespace = c.isWhitespace := by
  have h1 := toUpper_toNat c
  rw [Bool.eq_iff_iff, isWhitespace_iff, isWhitespace_iff]
  split at h1 <;> omega

theorem toLower_toLower (c : Char) : c.toLower.toLower = c.toLower := by
  rw [char_eq_iff_toNat]
  have h1 := toLower_toNat c
  have h2 := toLower_toNat c.toLower
  split at h1 <;> split at h2 <;> omega

theorem toLower_toUpper (c : Char) : c.toUpper.toLower = c.toLower := by
  rw [char_eq_iff_toNat]
  have h1 := toUpper_toNat c
  have h2 := toLower_toNat c.toUpper
  have h3 := toLower_toNat c
  split at h1 <;> split at h2 <;> split at h3 <;> omega

theorem toUpper_toLower (c : Char) : c.toLower.toUpper = c.toUpper := by
  rw [char_eq_iff_toNat]
  have h1 := toLower_toNat c
  have h2 := toUpper_toNat c.toLower
  have h3 := toUpper_toNat c
  split at h1 <;> split at h2 <;> split at h3 <;> omega

theorem toUpper_not_lowercase (c : Char) : ¬(97 ≤ c.toUpper.toNat ∧ c.toUpper.toNat ≤ 122) := by
  have h1 := toUpper_toNat c
  split at h1 <;> omega

/-! ### Facts about the embedded Python string primitives -/

theorem pySplitAux_nil (acc : List Char) :
    pySplitAux acc [] = if acc.isEmpty then [] else [acc.reverse] := rfl

theorem pySplitAux_cons_ws {c : Char} (hc : c.isWhitespace = true) (acc rest : List Char) :
    pySplitAux acc (c :: rest) =
      if acc.isEmpty then pySplitAux [] rest else acc.reverse :: pySplitAux [] rest := by
  simp [pySplitAux, hc]

theorem pySplitAux_cons_nonws {c : Char} (hc : c.isWhitespace = false) (acc rest : List Char) :
    pySplitAux acc (c :: rest) = pySplitAux (c :: acc) rest := by
  simp [pySplitAux, hc]

theorem pySplitAux_words : ∀ (l acc : List Char),
    (∀ c ∈ acc, c.isWhitespace = false) →
    ∀ w ∈ pySplitAux acc l, w ≠ [] ∧ ∀ c ∈ w, c.isWhitespace = false := by
  intro l
  induction l with
  | nil =>
    intro acc hacc w hw
    rw [pySplitAux_nil] at hw
    split at hw
    · simp at hw
    · rename_i hne
      simp only [List.mem_singleton] at hw
      subst hw
      refine ⟨?_, ?_⟩
      · intro habs
        rw [List.reverse_eq_nil_iff] at habs
        subst habs
        simp at hne
      · intro c hc
        exact hacc c (List.mem_reverse.mp hc)
  | cons c rest ih =>
    intro acc hacc w hw
    by_cases hws : c.isWhitespace
    · rw [pySplitAux_cons_ws hws] at hw
      split at hw
      · exact ih [] (by simp) w hw
      · rename_i hne
        rcases List.mem_cons.mp hw with h | h
        · subst h
          refine ⟨?_, ?_⟩
          · intro habs
            rw [List.reverse_eq_nil_iff] at habs
            subst habs
            simp at hne
          · intro x hx
            exact hacc x (List.mem_reverse.mp hx)
        · exact ih [] (by simp) w h
    · rw [pySplitAux_cons_nonws (by simpa using hws)] at hw
      refine ih (c :: acc) ?_ w hw
      intro x hx
      rcases List.mem_cons.mp hx with h | h
      · subst h
        simpa using hws
      · exact hacc x h

theorem pySplit_words (l : List Char) :
    ∀ w ∈ pySplit l, w ≠ [] ∧ ∀ c ∈ w, c.isWhitespace = false :=
  pySplitAux_words l [] (by simp)

theorem pySplitAux_map (f : Char → Char) (hf : ∀ c, (f c).isWhitespace = c.isWhitespace) :
    ∀ (l acc : List Char),
      pySplitAux (acc.map f) (l.map f) = (pySplitAux acc l).map (List.map f) := by
  intro l
  induction l with
  | nil =>
    intro acc
    rw [List.map_nil, pySplitAux_nil, pySplitAux_nil]
    cases acc <;> simp
  | cons c rest ih =>
    intro acc
    rw [List.map_cons]
    by_cases hws : c.isWhitespace
    · rw [pySplitAux_cons_ws (by rw [hf c]; exact hws), pySplitAux_cons_ws hws]
      have h0 := ih []
      rw [List.map_nil] at h0
      cases acc with
      | nil => simpa using h0
      | cons a as =>
        simp only [List.map_cons, List.isEmpty_cons, if_neg]
        rw [h0]
        simp [List.map_reverse]
    · rw [pySplitAux_cons_nonws (by rw [hf c]; simpa using hws),
        pySplitAux_cons_nonws (by simpa using hws)]
      have := ih (c :: acc)
      simpa using this

theorem pySplitAux_append {w : List Char} (hw : ∀ c ∈ w, c.isWhitespace = false) :
    ∀ (acc l : List Char), pySplitAux acc (w ++ l) = pySplitAux (w.reverse ++ acc) l := by
  induction w with
  | nil => intro acc l; simp
  | cons c cs ih =>
    intro acc l
    show pySplitAux acc (c :: (cs ++ l)) = _
    rw [pySplitAux_cons_nonws (hw c (by simp))]
    rw [ih (fun x hx => hw x (by simp [hx])) (c :: acc) l]
    simp

theorem pySplit_joinSpace : ∀ ws : List (List Char),
    (∀ w ∈ ws, w ≠ [] ∧ ∀ c ∈ w, c.isWhitespace = false) →
    pySplit (joinSpace ws) = ws := by
  intro ws
  induction ws with
  | nil => intro _; rfl
  | cons w ws ih =>
    intro hws
    have hwne := (hws w (by simp)).1
    have hwf := (hws w (by simp)).2
    cases ws with
    | nil =>
      show pySplitAux [] (joinSpace [w]) = [w]
      show pySplitAux [] w = [w]
      rw [show w = w ++ ([] : List Char) by simp, pySplitAux_append hwf]
      rw [pySplitAux_nil]
      rw [if_neg (by simp [List.isEmpty_iff, hwne])]
      simp
    | cons w2 ws2 =>
      show pySplitAux [] (joinSpace (w :: w2 :: ws2)) = _
      show pySplitAux [] (w ++ ' ' :: joinSpace (w2 :: ws2)) = _
      rw [pySplitAux_append hwf]
      rw [pySplitAux_cons_ws (by decide)]
      rw [if_neg (by simp [List.isEmpty_iff, hwne])]
      simp only [List.append_nil, List.reverse_reverse]
      rw [show pySplitAux [] (joinSpace (w2 :: ws2)) = pySplit (joinSpace (w2 :: ws2)) from rfl]
      rw [ih (fun x hx => hws x (by simp [hx]))]

theorem pyCapitalize_ne_nil {w : List Char} (hw : w ≠ []) : pyCapitalize w ≠ [] := by
  cases w with
  | nil => exact absurd rfl hw
  | cons c r => simp [pyCapitalize]

theorem pyCapitalize_wsfree {w : List Char} (hw : ∀ c ∈ w, c.isWhitespace = false) :
    ∀ c ∈ pyCapitalize w, c.isWhitespace = false := by
  cases w with
  | nil => simp [pyCapitalize]
  | cons c r =>
    intro x hx
    simp only [pyCapitalize, List.mem_cons] at hx
    rcases hx with h | h
    · subst h
      rw [isWhitespace_toUpper]
      exact hw c (by simp)
    · rcases List.mem_map.mp h with ⟨y, hy, hxy⟩
      subst hxy
      rw [isWhitespace_toLower]
      exact hw y (by simp [hy])

theorem pyCapitalize_map_toLower (w : List Char) :
    pyCapitalize (w.map Char.toLower) = pyCapitalize w := by
  cases w with
  | nil => rfl
  | cons c r =>
    simp only [List.map_cons, pyCapitalize, List.map_map]
    rw [toUpper_toLower]
    congr 1
    apply List.map_congr_left
    intro x _
    exact toLower_toLower x

theorem pySplit_pyNormalize (s : String) :
    pySplit (pyNormalize s).data = (pySplit s.data).map pyCapitalize := by
  show pySplit (joinSpace ((pySplit s.data).map pyCapitalize)) = _
  apply pySplit_joinSpace
  intro w hw
  rcases List.mem_map.mp hw with ⟨v, hv, hvw⟩
  subst hvw
  have hp := pySplit_words s.data v hv
  exact ⟨pyCapitalize_ne_nil hp.1, pyCapitalize_wsfree hp.2⟩

theorem pyNormalize_pyLower (s : String) : pyNormalize (pyLowerS s) = pyNormalize s := by
  show (⟨joinSpace ((pySplit (s.data.map Char.toLower)).map pyCapitalize)⟩ : String) = _
  have h1 : pySplit (s.data.map Char.toLower) = (pySplit s.data).map (List.map Char.toLower) := by
    have := pySplitAux_map Char.toLower isWhitespace_toLower s.data []
    simpa [pySplit] using this
  rw [h1]
  show (⟨joinSpace (((pySplit s.data).map (List.map Char.toLower)).map pyCapitalize)⟩ : String) = _
  rw [List.map_map]
  congr 2
  apply List.map_congr_left
  intro w _
  exact pyCapitalize_map_toLower w

theorem normalize_words_capitalized (s : String) :
    ∀ w ∈ pySplit (pyNormalize s).data, ∃ v, w = pyCapitalize v := by
  intro w hw
  rw [pySplit_pyNormalize] at hw
  rcases List.mem_map.mp hw with ⟨v, _, hvw⟩
  exact ⟨v, hvw.symm⟩

theorem pyCapitalize_head_not_lowercase {w : List Char} {c : Char} {r : List Char}
    (h : pyCapitalize w = c :: r) : ¬(97 ≤ c.toNat ∧ c.toNat ≤ 122) := by
  cases w with
  | nil => simp [pyCapitalize] at h
  | cons c0 r0 =>
    simp only [pyCapitalize, List.cons.injEq] at h
    rw [← h.1]
    exact toUpper_not_lowercase c0

theorem isPrefixOf_self (l : List Char) : l.isPrefixOf l = true := by
  induction l with
  | nil => rfl
  | cons c r ih => simp [List.isPrefixOf, ih]

theorem containsSubstring_self (l : List Char) : containsSubstring l l = true := by
  cases l with
  | nil => rfl
  | cons c r =>
    show (List.isPrefixOf (c :: r) (c :: r) || _) = true
    rw [isPrefixOf_self]
    rfl

theorem find?_congr {α : Type} (p q : α → Bool) : ∀ l : List α,
    (∀ x ∈ l, p x = q x) → l.find? p = l.find? q := by
  intro l
  induction l with
  | nil => intro _; rfl
  | cons a as ih =>
    intro h
    rw [List.find?_cons, List.find?_cons, h a (by simp)]
    split
    · rfl
    · exact ih (fun x hx => h x (by simp [hx]))

theorem catalogAlias_eq_firstSubstringMatch (n : String) :
    catalogAlias n = firstCatalogSubstringMatch n := by
  unfold catalogAlias firstCatalogSubstringMatch
  congr 1
  apply find?_congr
  intro kv _
  by_cases hbeq : pyLowerS n == pyLowerS kv.1
  · have heq : pyLowerS n = pyLowerS kv.1 := eq_of_beq hbeq
    rw [hbeq, ← heq, containsSubstring_self]
    rfl
  · rw [Bool.not_eq_true] at hbeq
    rw [hbeq, Bool.false_or]

theorem no_of_word_in_normalize (name : String)
    (h : "of".data ∈ pySplit (pyNormalize name).data) : False := by
  rcases normalize_words_capitalized name _ h with ⟨v, hv⟩
  have hv2 : pyCapitalize v = 'o' :: ['f'] := by
    rw [← hv]
  exact pyCapitalize_head_not_lowercase hv2 (by decide)

theorem catalogExact_normalize_cases (name : String) (e : InstitutionDetails)
    (h : catalogExact (pyNormalize name) = some e) :
    (pyNormalize name = "Stanford University" ∧ e = stanfordRecord) ∨
      (pyNormalize name = "Jawaharlal Nehru University" ∧ e = jnuRecord) := by
  unfold catalogExact at h
  rcases Option.map_eq_some'.mp h with ⟨kv, hfind, hkv2⟩
  have hmem := List.mem_of_find?_eq_some hfind
  have hpred := List.find?_some hfind
  have hkey : kv.1 = pyNormalize name := eq_of_beq hpred
  simp only [HARDCODED_INSTITUTION_DATA, List.mem_cons, List.not_mem_nil, or_false] at hmem
  rcases hmem with h1 | h1 | h1 | h1 | h1 | h1
  · subst h1
    have hk : "Indian Institute of Technology Bombay" = pyNormalize name := hkey
    exact absurd (by rw [← hk]; decide) (fun hof => no_of_word_in_normalize name hof)
  · subst h1
    have hk : "Indian Institute of Science" = pyNormalize name := hkey
    exact absurd (by rw [← hk]; decide) (fun hof => no_of_word_in_normalize name hof)
  · subst h1
    have hk : "All India Institute of Medical Sciences, Delhi" = pyNormalize name := hkey
    exact absurd (by rw [← hk]; decide) (fun hof => no_of_word_in_normalize name hof)
  · subst h1
    have hk : "Jawaharlal Nehru University" = pyNormalize name := hkey
    exact Or.inr ⟨hk.symm, hkv2.symm⟩
  · subst h1
    have hk : "Stanford University" = pyNormalize name := hkey
    exact Or.inl ⟨hk.symm, hkv2.symm⟩
  · subst h1
    have hk : "Massachusetts Institute of Technology" = pyNormalize name := hkey
    exact absurd (by rw [← hk]; decide) (fun hof => no_of_word_in_normalize name hof)

theorem catalog_entries_pass_gate :
    ∀ kv ∈ HARDCODED_INSTITUTION_DATA,
      kv.2.summary ≠ "No summary found." ∧ kv.2.founded_year ≠ "Not Available" := by
  decide

theorem catalogResolve_ok_mem {n orig : String} {e : InstitutionDetails}
    (h : catalogResolve n orig = .ok e) :
    ∃ kv ∈ HARDCODED_INSTITUTION_DATA, kv.2 = e := by
  unfold catalogResolve at h
  split at h
  · rename_i d hd
    unfold catalogExact at hd
    rcases Option.map_eq_some'.mp hd with ⟨kv, hfind, hkv2⟩
    cases h
    exact ⟨kv, List.mem_of_find?_eq_some hfind, hkv2⟩
  · split at h
    · rename_i d hd
      unfold catalogAlias at hd
      rcases Option.map_eq_some'.mp hd with ⟨kv, hfind, hkv2⟩
      cases h
      exact ⟨kv, List.mem_of_find?_eq_some hfind, hkv2⟩
    · cases h

/-! ### Facts about the spec-modelled chunker -/

theorem splitGo_succ_cons (size step fuel : Nat) (c : Char) (rest : List Char) :
    splitGo size step (fuel + 1) (c :: rest) =
      (c :: rest).take size ::
        (if (c :: rest).length ≤ size then []
          else splitGo size step fuel ((c :: rest).drop step)) := rfl

theorem splitGo_get? (size step : Nat) (hstep : 0 < step) :
    ∀ (fuel : Nat) (cs : List Char), cs.length ≤ fuel →
      ∀ (i : Nat) (chunk : List Char), (splitGo size step fuel cs).get? i = some chunk →
        chunk = (cs.drop (i * step)).take size := by
  intro fuel
  induction fuel with
  | zero =>
    intro cs hcs i chunk hget
    have : cs = [] := List.eq_nil_of_length_eq_zero (Nat.le_zero.mp hcs)
    subst this
    simp [splitGo] at hget
  | succ fuel ih =>
    intro cs hcs i chunk hget
    cases cs with
    | nil => simp [splitGo] at hget
    | cons c rest =>
      rw [splitGo_succ_cons] at hget
      cases i with
      | zero =>
        rw [List.get?_cons_zero] at hget
        cases hget
        simp
      | succ i =>
        rw [List.get?_cons_succ] at hget
        split at hget
        · simp at hget
        · rename_i hgt
          have hlen : ((c :: rest).drop step).length ≤ fuel := by
            rw [List.length_drop]
            simp only [List.length_cons] at hcs hgt ⊢
            omega
          have hres := ih ((c :: rest).drop step) hlen i chunk hget
          rw [hres, List.drop_drop]
          have harith : step + i * step = (i + 1) * step := by ring
          rw [harith]

theorem splitGo_cover (size step : Nat) (hstep : 0 < step) (hss : step ≤ size) :
    ∀ (fuel : Nat) (cs : List Char), cs.length ≤ fuel →
      ∀ p, p < cs.length →
        ∃ i chunk, (splitGo size step fuel cs).get? i = some chunk ∧
          i * step ≤ p ∧ p < i * step + chunk.length := by
  intro fuel
  induction fuel with
  | zero =>
    intro cs hcs p hp
    omega
  | succ fuel ih =>
    intro cs hcs p hp
    cases cs with
    | nil => simp at hp
    | cons c rest =>
      rw [splitGo_succ_cons]
      by_cases hle : (c :: rest).length ≤ size
      · refine ⟨0, (c :: rest).take size, List.get?_cons_zero, by simp, ?_⟩
        rw [List.length_take]
        simp only [List.length_cons] at hle hp ⊢
        omega
      · by_cases hpsize : p < size
        · refine ⟨0, (c :: rest).take size, List.get?_cons_zero, by simp, ?_⟩
          rw [List.length_take]
          simp only [List.length_cons] at hle hp ⊢
          omega
        · have hlen : ((c :: rest).drop step).length ≤ fuel := by
            rw [List.length_drop]
            simp only [List.length_cons] at hcs hle ⊢
            omega
          have hp2 : p - step < ((c :: rest).drop step).length := by
            rw [List.length_drop]
            simp only [List.length_cons] at hp ⊢
            omega
          rcases ih ((c :: rest).drop step) hlen (p - step) hp2 with ⟨i, chunk, hget, hlow, hhigh⟩
          refine ⟨i + 1, chunk, ?_, ?_, ?_⟩
          · rw [List.get?_cons_succ, if_neg hle]
            exact hget
          · have harith : (i + 1) * step = i * step + step := by ring
            omega
          · have harith : (i + 1) * step = i * step + step := by ring
            omega

/-! ### Claim theorems -/

/-- Claim C1, counterexample: `setup_doc_qa` invoked with `file_type = "xyz"`
does not fail with `UnsupportedFormat` — no such failure path exists in the
dispatch — and it does treat the payload as plain text, selecting
`TextLoader`. -/
theorem C1_counterexample :
    setup_doc_qa "xyz" = DocLoader.textLoader ∧
      DocLoader.textLoader ≠ DocLoader.pyPDFLoader := by
  exact ⟨rfl, by decide⟩

/-- Claim C1, amended: for every `file_type` other than `"pdf"` (including
`"xyz"`, `"docx"` and `"txt"`), `setup_doc_qa` loads the file with the
plain-text `TextLoader`; there is no `UnsupportedFormat` failure. -/
theorem C1_text_loader_for_non_pdf (file_type : String) (h : file_type ≠ "pdf") :
    setup_doc_qa file_type = DocLoader.textLoader := by
  unfold setup_doc_qa
  rw [if_neg (by simpa using h)]

/-- Claim C1, witness: the amended theorem evaluated at `"xyz"`. -/
theorem C1_witness : ("xyz" : String) ≠ "pdf" ∧ setup_doc_qa "xyz" = DocLoader.textLoader :=
  ⟨by decide, C1_text_loader_for_non_pdf "xyz" (by decide)⟩

/-- Claim C2: when the gated scrape stage yields no accepted record and both
static-catalog stages miss, `get_institution_info` fails with the single
typed not-found failure (the `ValueError`) whose message carries the original
input name — and with no other kind of failure, since this is the only
`error` branch of the function. -/
theorem C2_exhaustion_not_found (web : String → FetchOutcome) (name : String)
    (hscrape : acceptedScrape web (pyNormalize name) = none)
    (hexact : catalogExact (pyNormalize name) = none)
    (halias : catalogAlias (pyNormalize name) = none) :
    get_institution_info web name =
      Except.error
        ("No data available for \x27" ++ name ++ "\x27 from web or hardcoded sources.") := by
  simp only [get_institution_info]
  rw [hscrape]
  unfold catalogResolve
  rw [hexact, halias]

/-- Claim C2, witness: the resolver exhausts on the fictional name from the
spec with the scrape stage timing out. -/
theorem C2_witness :
    get_institution_info (fun _ => FetchOutcome.timeout) "Fictional University of Nowhere XYZ" =
      Except.error
        "No data available for \x27Fictional University of Nowhere XYZ\x27 from web or hardcoded sources." :=
  C2_exhaustion_not_found _ _ (by decide) (by decide) (by decide)

/-- Claim C3 (code bug): with the scrape stage failing, `resolve_institution`
on `"iit bombay"` and `"IIT BOMBAY"` does NOT return the catalog entry keyed
`"Indian Institute of Technology Bombay"`: the normalized input lowercases to
`"iit bombay"`, which is not a substring of any catalog key, so both calls
raise the not-found `ValueError` — contradicting the code's own comment that
the alias loop makes `"IIT Bombay"` match that key. -/
theorem C3_iit_bombay_not_found :
    get_institution_info (fun _ => FetchOutcome.timeout) "iit bombay" =
      Except.error "No data available for \x27iit bombay\x27 from web or hardcoded sources." ∧
    get_institution_info (fun _ => FetchOutcome.timeout) "IIT BOMBAY" =
      Except.error "No data available for \x27IIT BOMBAY\x27 from web or hardcoded sources." := by
  constructor
  · decide
  · decide

/-- Claim C4: a scraped record is returned by `get_institution_info` exactly
when its summary differs from `"No summary found."` and its founded year
differs from `"Not Available"`; when the gate fails, the scraped record is
discarded entirely and the result is exactly that of the static catalog
stages (`catalogResolve`), which cannot return the rejected record because
every catalog entry passes the gate. -/
theorem C4_completeness_gate (web : String → FetchOutcome) (name : String)
    (d : InstitutionDetails)
    (hfetch : fetch_from_wikipedia web (pyNormalize name) = some d) :
    (get_institution_info web name = Except.ok d ↔
      (d.summary ≠ "No summary found." ∧ d.founded_year ≠ "Not Available")) ∧
    ((d.summary = "No summary found." ∨ d.founded_year = "Not Available") →
      get_institution_info web name = catalogResolve (pyNormalize name) name) := by
  have hacc : acceptedScrape web (pyNormalize name) =
      (if d.summary ≠ "No summary found." ∧ d.founded_year ≠ "Not Available" then some d
        else none) := by
    unfold acceptedScrape
    rw [hfetch]
  by_cases hgate : d.summary ≠ "No summary found." ∧ d.founded_year ≠ "Not Available"
  · rw [if_pos hgate] at hacc
    have hget : get_institution_info web name = Except.ok d := by
      simp only [get_institution_info]
      rw [hacc]
    refine ⟨⟨fun _ => hgate, fun _ => hget⟩, ?_⟩
    intro hbad
    rcases hbad with hb | hb
    · exact absurd hb hgate.1
    · exact absurd hb hgate.2
  · rw [if_neg hgate] at hacc
    have hget : get_institution_info web name = catalogResolve (pyNormalize name) name := by
      simp only [get_institution_info]
      rw [hacc]
    refine ⟨⟨?_, fun hg => absurd hg hgate⟩, fun _ => hget⟩
    intro hok
    exfalso
    rw [hget] at hok
    rcases catalogResolve_ok_mem hok with ⟨kv, hmem, hkv⟩
    have hpass := catalog_entries_pass_gate kv hmem
    rw [hkv] at hpass
    exact hgate hpass

/-- Claim C4, witness: a complete scraped page passes the gate and is
returned as-is. -/
theorem C4_witness :
    get_institution_info
        (fun _ => FetchOutcome.page
          { title := some "Test Institute"
            hasDisambigbox := false
            infobox := some [{ th := some "Established", td := some "Founded in 1901 as a school" }]
            paragraphs := ["A small test institute."]
            firstHeading := some "Test Institute" })
        "Test Institute" =
      Except.ok
        { name := "Test Institute"
          founder := "Not Available"
          founded_year := "1901"
          branches := []
          employees := "Not Available"
          summary := "A small test institute." } :=
  ((C4_completeness_gate _ "Test Institute" _ (by decide)).1).mpr (by decide)

/-- Claim C5: a scrape-stage timeout, HTTP error or network error is never
surfaced by `get_institution_info`: `fetch_from_wikipedia` converts it to
`none` (the try-next-stage signal) and resolution proceeds exactly as the
static catalog stages dictate; in particular a catalog hit is returned
rather than any failure. -/
theorem C5_scrape_errors_fall_through (web : String → FetchOutcome) (name : String)
    (herr : isScrapeError (web (wikiRequestUrl (pyNormalize name))) = true) :
    fetch_from_wikipedia web (pyNormalize name) = none ∧
    get_institution_info web name = catalogResolve (pyNormalize name) name ∧
    (∀ d, catalogResolve (pyNormalize name) name = Except.ok d →
      get_institution_info web name = Except.ok d) := by
  have hfetch : fetch_from_wikipedia web (pyNormalize name) = none := by
    unfold fetch_from_wikipedia
    cases hw : web (wikiRequestUrl (pyNormalize name))
    · rfl
    · rfl
    · rfl
    · rfl
    · rw [hw] at herr
      exact absurd herr (by simp [isScrapeError])
  have hacc : acceptedScrape web (pyNormalize name) = none := by
    unfold acceptedScrape
    rw [hfetch]
  have hget : get_institution_info web name = catalogResolve (pyNormalize name) name := by
    simp only [get_institution_info]
    rw [hacc]
  exact ⟨hfetch, hget, fun d hd => hget.trans hd⟩

/-- Claim C5, witness: with the scrape stage timing out, the resolver
returns the Stanford catalog entry instead of a failure. -/
theorem C5_witness :
    fetch_from_wikipedia (fun _ => FetchOutcome.timeout) (pyNormalize "Stanford University") =
        none ∧
    get_institution_info (fun _ => FetchOutcome.timeout) "Stanford University" =
      Except.ok stanfordRecord :=
  ⟨(C5_scrape_errors_fall_through (fun _ => FetchOutcome.timeout) "Stanford University"
      (by decide)).1,
    (C5_scrape_errors_fall_through (fun _ => FetchOutcome.timeout) "Stanford University"
      (by decide)).2.2 stanfordRecord (by decide)⟩

/-- Claim C6 (chunker modelled from the spec, the algorithm living in the
external langchain `CharacterTextSplitter`): with chunk size 1000 and
overlap 200, chunk `i` is exactly the `chunkSize`-character window starting
at position `i * (chunkSize - chunkOverlap)` of the text — so the chunks
appear in document order at stride `chunk_size - overlap` — and every
character position of the text lies in at least one chunk (full coverage,
no gaps). -/
theorem C6_chunk_coverage (cs : List Char) :
    (∀ i chunk, (splitText chunkSize chunkStride cs).get? i = some chunk →
      chunk = (cs.drop (i * chunkStride)).take chunkSize) ∧
    (∀ p, p < cs.length →
      ∃ i chunk, (splitText chunkSize chunkStride cs).get? i = some chunk ∧
        i * chunkStride ≤ p ∧ p < i * chunkStride + chunk.length) := by
  constructor
  · intro i chunk hget
    exact splitGo_get? chunkSize chunkStride (by decide) cs.length cs (Nat.le_refl _) i chunk hget
  · intro p hp
    exact splitGo_cover chunkSize chunkStride (by decide) (by decide) cs.length cs
      (Nat.le_refl _) p hp

/-- Claim C6, witness: position 1200 of a 1700-character text is covered by
some chunk. -/
theorem C6_witness :
    ∃ i chunk,
      (splitText chunkSize chunkStride (List.replicate 1700 'a')).get? i = some chunk ∧
        i * chunkStride ≤ 1200 ∧ 1200 < i * chunkStride + chunk.length :=
  (C6_chunk_coverage (List.replicate 1700 'a')).2 1200 (by rw [List.length_replicate]; omega)

/-- Claim C7, counterexample: a row whose header contains both `"Founder"`
and `"Founded"` (here `"Founded by Founder"`, value `"1958"`) is captured by
the `Founder` branch of the `elif` chain, so `founded_year` stays
`"Not Available"` even though the claim predicts it becomes the extracted
year `"1958"`. -/
theorem C7_counterexample :
    strContainsS "Founded by Founder" "Founded" = true ∧
    (applyRow initFields { th := some "Founded by Founder", td := some "1958" }).founded_year =
      "Not Available" ∧
    extractFoundedYear "1958" = "1958" ∧
    ("Not Available" : String) ≠ "1958" := by
  exact ⟨by decide, by decide, by decide, by decide⟩

/-- Claim C7, amended: for every infobox row with both header and value whose
header contains `"Established"` or `"Founded"` AND does not contain
`"Founder"`, the row sets `founded_year` to the first standalone four-digit
number of the value when one exists and to the raw value text otherwise
(`extractFoundedYear`), leaving all other fields unchanged; a row whose
header matches none of the listed labels leaves all fields unchanged. -/
theorem C7_founded_year_extraction :
    (∀ (st : InfoboxFields) (h d : String),
      (strContainsS h "Established" = true ∨ strContainsS h "Founded" = true) →
      strContainsS h "Founder" = false →
      applyRow st { th := some h, td := some d } =
        { st with founded_year := extractFoundedYear d }) ∧
    (∀ (st : InfoboxFields) (h d : String),
      strContainsS h "Founder" = false → strContainsS h "Established" = false →
      strContainsS h "Founded" = false → strContainsS h "Campus" = false →
      strContainsS h "Location" = false → strContainsS h "Branches" = false →
      strContainsS h "Employees" = false → strContainsS h "Staff" = false →
      applyRow st { th := some h, td := some d } = st) := by
  constructor
  · intro st h d hmatch hnof
    rcases hmatch with hm | hm
    · simp [applyRow, hnof, hm]
    · simp [applyRow, hnof, hm]
  · intro st h d h1 h2 h3 h4 h5 h6 h7 h8
    simp [applyRow, h1, h2, h3, h4, h5, h6, h7, h8]

/-- Claim C7, witness: an `Established` row extracts the year; a `Motto` row
changes nothing. -/
theorem C7_witness :
    applyRow initFields { th := some "Established", td := some "It opened in 1907." } =
      { initFields with founded_year := "1907" } ∧
    applyRow initFields { th := some "Motto", td := some "Truth 1907" } = initFields :=
  ⟨(C7_founded_year_extraction.1 initFields "Established" "It opened in 1907."
      (Or.inl (by decide)) (by decide)).trans (by decide),
    C7_founded_year_extraction.2 initFields "Motto" "Truth 1907" (by decide) (by decide)
      (by decide) (by decide) (by decide) (by decide) (by decide) (by decide)⟩

/-- Claim C8, counterexample: when initialization of the fixed-corpus
pipeline fails at startup, `ipc_qa` is `None`, and a subsequent question
produces the untyped `TypeError` of calling `None` — not a
`GenerationFailure` or `EmbeddingUnavailable`. -/
theorem C8_counterexample :
    ipc_tab_answer (@ipc_qa_init Unit (Except.error "ipc.pdf not found"))
        (fun _ _ => IpcOutcome.answered "") "What is the punishment for murder under IPC?" =
      IpcOutcome.untypedError "TypeError: NoneType object is not callable" ∧
    isTypedProviderFailure
        (ipc_tab_answer (@ipc_qa_init Unit (Except.error "ipc.pdf not found"))
          (fun _ _ => IpcOutcome.answered "") "What is the punishment for murder under IPC?") =
      false := by
  exact ⟨rfl, rfl⟩

/-- Claim C8, amended: failures of the fixed-corpus QA entry point are not
confined to typed `GenerationFailure`/`EmbeddingUnavailable` values: whenever
`setup_ipc_qa` fails at startup, the module-level `ipc_qa` is `None` and
every subsequent question yields the untyped error of calling `None`
(rendered by the UI's blanket `except Exception`), never a typed provider
failure. -/
theorem C8_none_pipeline_untyped (a : Type) (e : String) (run : a → String → IpcOutcome)
    (q : String) :
    ipc_tab_answer (ipc_qa_init (Except.error e : Except String a)) run q =
      IpcOutcome.untypedError "TypeError: NoneType object is not callable" ∧
    isTypedProviderFailure (ipc_tab_answer (ipc_qa_init (Except.error e : Except String a)) run q) =
      false := by
  exact ⟨rfl, rfl⟩

/-- Claim C9: when the gated scrape stage yields no accepted record, any
input whose capitalize-normalization, lowercased, is a substring of some
catalog key (lowercased) resolves to the first such entry in insertion order
(`firstCatalogSubstringMatch`, which coincides with the alias loop); since
the empty string is a substring of every key, the empty and the
whitespace-only input both resolve to the first catalog entry, the IIT
Bombay record, instead of failing with not-found. -/
theorem C9_substring_alias_first_match :
    (∀ (web : String → FetchOutcome) (name : String) (d : InstitutionDetails),
      acceptedScrape web (pyNormalize name) = none →
      firstCatalogSubstringMatch (pyNormalize name) = some d →
      get_institution_info web name = Except.ok d) ∧
    (∀ web : String → FetchOutcome,
      acceptedScrape web (pyNormalize "") = none →
      get_institution_info web "" = Except.ok iitBombayRecord) ∧
    (∀ web : String → FetchOutcome,
      acceptedScrape web (pyNormalize "   ") = none →
      get_institution_info web "   " = Except.ok iitBombayRecord) := by
  have hmain : ∀ (web : String → FetchOutcome) (name : String) (d : InstitutionDetails),
      acceptedScrape web (pyNormalize name) = none →
      firstCatalogSubstringMatch (pyNormalize name) = some d →
      get_institution_info web name = Except.ok d := by
    intro web name d hacc hmatch
    simp only [get_institution_info]
    rw [hacc]
    unfold catalogResolve
    cases hexact : catalogExact (pyNormalize name) with
    | some e =>
      rcases catalogExact_normalize_cases name e hexact with ⟨hn, he⟩ | ⟨hn, he⟩
      · rw [hn] at hmatch
        rw [show firstCatalogSubstringMatch "Stanford University" = some stanfordRecord
          from by decide] at hmatch
        cases hmatch
        rw [he]
      · rw [hn] at hmatch
        rw [show firstCatalogSubstringMatch "Jawaharlal Nehru University" = some jnuRecord
          from by decide] at hmatch
        cases hmatch
        rw [he]
    | none =>
      rw [catalogAlias_eq_firstSubstringMatch, hmatch]
  refine ⟨hmain, ?_, ?_⟩
  · intro web hacc
    exact hmain web "" iitBombayRecord hacc (by decide)
  · intro web hacc
    exact hmain web "   " iitBombayRecord hacc (by decide)

/-- Claim C9, witness: the empty input resolves to the first catalog entry
when the scrape stage times out. -/
theorem C9_witness :
    get_institution_info (fun _ => FetchOutcome.timeout) "" = Except.ok iitBombayRecord :=
  C9_substring_alias_first_match.2.1 (fun _ => FetchOutcome.timeout) (by decide)

theorem normalize_of_lower_eq (V K : String)
    (h : V.data.map Char.toLower = K.data.map Char.toLower) :
    pyNormalize V = pyNormalize (pyLowerS K) := by
  rw [← pyNormalize_pyLower V]
  show pyNormalize ⟨V.data.map Char.toLower⟩ = _
  rw [h]
  rfl

/-- Claim C10: capitalize-normalization turns connector words like `"of"`
into `"Of"`, so for any catalog key containing a word that is not its own
capitalization, no case variant of the key normalizes to the key itself and
the exact-match stage misses; nevertheless EVERY case variant of EVERY
catalog key (with the scrape stage yielding no accepted record) resolves to
that key's record, because the case-insensitive comparison of the alias loop
succeeds. -/
theorem C10_case_variant_resolution :
    (∀ kv ∈ HARDCODED_INSTITUTION_DATA,
      (∃ w ∈ pySplit kv.1.data, pyCapitalize w ≠ w) →
      ∀ V : String, V.data.map Char.toLower = kv.1.data.map Char.toLower →
        pyNormalize V ≠ kv.1 ∧ catalogExact (pyNormalize V) = none) ∧
    (∀ kv ∈ HARDCODED_INSTITUTION_DATA, ∀ (web : String → FetchOutcome) (V : String),
      V.data.map Char.toLower = kv.1.data.map Char.toLower →
      acceptedScrape web (pyNormalize V) = none →
      get_institution_info web V = Except.ok kv.2) := by
  constructor
  · intro kv hkv
    simp only [HARDCODED_INSTITUTION_DATA, List.mem_cons, List.not_mem_nil, or_false] at hkv
    rcases hkv with h1 | h1 | h1 | h1 | h1 | h1 <;> subst h1 <;> intro hex V hlow
    · have hnV : pyNormalize V = "Indian Institute Of Technology Bombay" :=
        (normalize_of_lower_eq V "Indian Institute of Technology Bombay" hlow).trans (by decide)
      exact ⟨by rw [hnV]; decide, by rw [hnV]; decide⟩
    · have hnV : pyNormalize V = "Indian Institute Of Science" :=
        (normalize_of_lower_eq V "Indian Institute of Science" hlow).trans (by decide)
      exact ⟨by rw [hnV]; decide, by rw [hnV]; decide⟩
    · have hnV : pyNormalize V = "All India Institute Of Medical Sciences, Delhi" :=
        (normalize_of_lower_eq V "All India Institute of Medical Sciences, Delhi" hlow).trans
          (by decide)
      exact ⟨by rw [hnV]; decide, by rw [hnV]; decide⟩
    · exact absurd hex (by decide)
    · exact absurd hex (by decide)
    · have hnV : pyNormalize V = "Massachusetts Institute Of Technology" :=
        (normalize_of_lower_eq V "Massachusetts Institute of Technology" hlow).trans (by decide)
      exact ⟨by rw [hnV]; decide, by rw [hnV]; decide⟩
  · intro kv hkv
    simp only [HARDCODED_INSTITUTION_DATA, List.mem_cons, List.not_mem_nil, or_false] at hkv
    rcases hkv with h1 | h1 | h1 | h1 | h1 | h1 <;> subst h1 <;> intro web V hlow hacc
    · have hnV : pyNormalize V = "Indian Institute Of Technology Bombay" :=
        (normalize_of_lower_eq V "Indian Institute of Technology Bombay" hlow).trans (by decide)
      rw [hnV] at hacc
      simp only [get_institution_info]
      rw [hnV, hacc]
      unfold catalogResolve
      rw [show catalogExact "Indian Institute Of Technology Bombay" = none from by decide]
      rw [show catalogAlias "Indian Institute Of Technology Bombay" = some iitBombayRecord
        from by decide]
    · have hnV : pyNormalize V = "Indian Institute Of Science" :=
        (normalize_of_lower_eq V "Indian Institute of Science" hlow).trans (by decide)
      rw [hnV] at hacc
      simp only [get_institution_info]
      rw [hnV, hacc]
      unfold catalogResolve
      rw [show catalogExact "Indian Institute Of Science" = none from by decide]
      rw [show catalogAlias "Indian Institute Of Science" = some iiscRecord from by decide]
    · have hnV : pyNormalize V = "All India Institute Of Medical Sciences, Delhi" :=
        (normalize_of_lower_eq V "All India Institute of Medical Sciences, Delhi" hlow).trans
          (by decide)
      rw [hnV] at hacc
      simp only [get_institution_info]
      rw [hnV, hacc]
      unfold catalogResolve
      rw [show catalogExact "All India Institute Of Medical Sciences, Delhi" = none
        from by decide]
      rw [show catalogAlias "All India Institute Of Medical Sciences, Delhi" = some aiimsRecord
        from by decide]
    · have hnV : pyNormalize V = "Jawaharlal Nehru University" :=
        (normalize_of_lower_eq V "Jawaharlal Nehru University" hlow).trans (by decide)
      rw [hnV] at hacc
      simp only [get_institution_info]
      rw [hnV, hacc]
      unfold catalogResolve
      rw [show catalogExact "Jawaharlal Nehru University" = some jnuRecord from by decide]
    · have hnV : pyNormalize V = "Stanford University" :=
        (normalize_of_lower_eq V "Stanford University" hlow).trans (by decide)
      rw [hnV] at hacc
      simp only [get_institution_info]
      rw [hnV, hacc]
      unfold catalogResolve
      rw [show catalogExact "Stanford University" = some stanfordRecord from by decide]
    · have hnV : pyNormalize V = "Massachusetts Institute Of Technology" :=
        (normalize_of_lower_eq V "Massachusetts Institute of Technology" hlow).trans (by decide)
      rw [hnV] at hacc
      simp only [get_institution_info]
      rw [hnV, hacc]
      unfold catalogResolve
      rw [show catalogExact "Massachusetts Institute Of Technology" = none from by decide]
      rw [show catalogAlias "Massachusetts Institute Of Technology" = some mitRecord
        from by decide]

/-- Claim C10, witness: the all-caps variant of `"Indian Institute of
Science"` does not normalize to the key (exact match misses) yet resolves to
the IISc record through the alias loop. -/
theorem C10_witness :
    pyNormalize "INDIAN INSTITUTE OF SCIENCE" ≠ "Indian Institute of Science" ∧
    get_institution_info (fun _ => FetchOutcome.timeout) "INDIAN INSTITUTE OF SCIENCE" =
      Except.ok iiscRecord :=
  ⟨(C10_case_variant_resolution.1 ("Indian Institute of Science", iiscRecord) (by decide)
      (by decide) "INDIAN INSTITUTE OF SCIENCE" (by decide)).1,
    C10_case_variant_resolution.2 ("Indian Institute of Science", iiscRecord) (by decide)
      (fun _ => FetchOutcome.timeout) "INDIAN INSTITUTE OF SCIENCE" (by decide) (by decide)⟩
